import Mathlib

/-!
Shallow embedding of the Grocer-app-backend (FastAPI + SQLAlchemy grocery backend).

The embedding models the committed database state as an explicit record of lists
(one list per table, in insertion order, as SQLAlchemy returns unordered queries),
and each route handler as a function from the committed state and its arguments to
the pair of the committed state after the request and the HTTP outcome
(`Except ApiError` for the response). A handler that raises `HTTPException` never
commits (`get_db` closes the session without committing on an exception), so on the
error path the committed state is returned unchanged exactly when the handler raised
before its `db.commit()` call.

Numeric columns (`Numeric(10, 2)` prices and totals) are modelled over `ℚ`, with
Python's `round(x, 2)` modelled as exact round-half-to-even on `ℚ`.
-/

namespace Grocer

/-! ### utils/security.py -/

/-- Byte sequence of the UTF-8 encoding of one Unicode scalar value,
as `str.encode('utf-8')` produces per character. -/
def utf8EncodeChar (c : Char) : List Nat :=
  let v := c.toNat
  if v < 0x80 then [v]
  else if v < 0x800 then [0xC0 + v / 64, 0x80 + v % 64]
  else if v < 0x10000 then [0xE0 + v / 4096, 0x80 + (v / 64) % 64, 0x80 + v % 64]
  else [0xF0 + v / 262144, 0x80 + (v / 4096) % 64, 0x80 + (v / 64) % 64, 0x80 + v % 64]

/-- UTF-8 encoding of a Python `str` (list of code points), i.e. `s.encode('utf-8')`. -/
def encodeUtf8 (s : List Char) : List Nat :=
  (s.map utf8EncodeChar).flatten

/-- Python `len(s.encode('utf-8'))`. -/
def pyByteLen (s : String) : Nat :=
  (encodeUtf8 s.data).length

/-- Modelled from the spec: the bcrypt primitive behind passlib's `CryptContext`
(`pwd_context`), whose internals are a library outside `src/`. The spec states the
hashing primitive has a maximum effective input length (72 bytes): bcrypt keys are
the first 72 bytes of the UTF-8 encoded secret and the passlib backend silently
truncates longer inputs. A hash value is modelled as the effective key material. -/
structure BcryptHash where
  key72 : List Nat
  deriving DecidableEq, Repr

/-- Modelled from the spec: `pwd_context.hash` — effective input is the first
72 bytes of the UTF-8 encoding of the secret. -/
def pwdContextHash (password : String) : BcryptHash :=
  ⟨(encodeUtf8 password.data).take 72⟩

/-- Modelled from the spec: `pwd_context.verify` — compares the effective key
material of the candidate secret with the stored hash. -/
def pwdContextVerify (password : String) (hashed : BcryptHash) : Bool :=
  (encodeUtf8 password.data).take 72 == hashed.key72

/-- `hash_password` from `app/utils/security.py`: when the UTF-8 byte length exceeds
72 the code slices the *string* (`password[:72]`, i.e. 72 code points) before hashing. -/
def hash_password (password : String) : BcryptHash :=
  let password := if pyByteLen password > 72 then password.take 72 else password
  pwdContextHash password

/-- `verify_password` from `app/utils/security.py`: applies the same slice
(`plain_password[:72]`) before verifying. -/
def verify_password (plain_password : String) (hashed_password : BcryptHash) : Bool :=
  let plain_password :=
    if pyByteLen plain_password > 72 then plain_password.take 72 else plain_password
  pwdContextVerify plain_password hashed_password

/-- A JSON value that can sit in the `sub` claim: the code passes an `int`
(`user.id`) where RFC 7519 requires a string. -/
inductive JVal where
  | jint : Int → JVal
  | jstr : String → JVal
  deriving DecidableEq, Repr

/-- JWT claim set produced by `create_access_token`: the `data` dict
(`sub`, `username`, `role`) plus the `exp` timestamp (seconds since epoch). -/
structure Payload where
  sub : Option JVal
  username : String
  role : String
  exp : Nat
  deriving DecidableEq, Repr

/-- A wire-level bearer token: either a well-formed JWT carrying a claim set and
the key it was signed with, or a malformed string. -/
inductive TokenWire where
  | signed : Payload → String → TokenWire
  | malformed : String → TokenWire
  deriving DecidableEq, Repr

/-- `settings.SECRET_KEY` (opaque configured value). -/
def SECRET_KEY : String := "app-secret-key"

/-- `settings.ACCESS_TOKEN_EXPIRE_MINUTES` (7 days). -/
def ACCESS_TOKEN_EXPIRE_MINUTES : Nat := 10080

/-- The `data` dict passed by `login` to `create_access_token`. -/
structure TokenData where
  sub : JVal
  username : String
  role : String
  deriving DecidableEq, Repr

/-- Models python-jose `jwt.encode(to_encode, SECRET_KEY, algorithm)`:
a signed token carrying the claim set. -/
def jose_encode (claims : Payload) (key : String) : TokenWire :=
  .signed claims key

/-- `create_access_token` from `app/utils/security.py`: copies the data, adds
`exp = now + expires_delta` (default `ACCESS_TOKEN_EXPIRE_MINUTES`), signs with
`SECRET_KEY`. Times are in seconds. -/
def create_access_token (data : TokenData) (expires_delta : Option Nat) (now : Nat) :
    TokenWire :=
  let expire := match expires_delta with
    | some d => now + d
    | none => now + ACCESS_TOKEN_EXPIRE_MINUTES * 60
  jose_encode ⟨some data.sub, data.username, data.role, expire⟩ SECRET_KEY

/-- Models python-jose `jwt.decode(token, key, algorithms)` with default options:
rejects malformed tokens and bad signatures, raises `ExpiredSignatureError` when
`exp < now`, and validates registered claims — in particular `_validate_sub` raises
`JWTClaimsError("Subject must be a string.")` whenever a present `sub` claim is not
a string. All of these are `JWTError`s; `none` is the raising outcome. -/
def jose_decode (token : TokenWire) (key : String) (now : Nat) : Option Payload :=
  match token with
  | .malformed _ => none
  | .signed claims k =>
    if k != key then none
    else if claims.exp < now then none
    else match claims.sub with
      | some (.jint _) => none
      | _ => some claims

/-- `decode_access_token` from `app/utils/security.py`: returns the payload, or
`None` when `jwt.decode` raised a `JWTError`. -/
def decode_access_token (token : TokenWire) (now : Nat) : Option Payload :=
  jose_decode token SECRET_KEY now

/-! ### models.py — table rows -/

/-- A row of `users`. The stored password hash is the `BcryptHash` model above. -/
structure User where
  id : Int
  username : String
  email : String
  hashed_password : BcryptHash
  first_name : String
  last_name : String
  phone : Option String
  is_active : Bool
  is_verified : Bool
  role : String
  deriving DecidableEq, Repr

/-- A row of `user_addresses`. -/
structure UserAddress where
  id : Int
  user_id : Int
  label : String
  street : String
  city : String
  state : String
  postal_code : String
  country : String
  is_default : Bool
  delivery_instructions : Option String
  created_at : Int
  deriving DecidableEq, Repr

/-- A row of `categories`. -/
structure Category where
  id : Int
  name : String
  deriving DecidableEq, Repr

/-- A row of `products`. `stock` is a plain SQL `Integer` column: the schema does
not constrain it to be non-negative. -/
structure Product where
  id : Int
  category_id : Int
  name : String
  description : Option String
  price : ℚ
  stock : Int
  is_active : Bool
  deriving DecidableEq, Repr

/-- A row of `orders`. -/
structure Order where
  id : Int
  user_id : Int
  delivery_street : String
  delivery_city : String
  delivery_state : String
  delivery_postal_code : String
  delivery_country : String
  delivery_instructions : Option String
  subtotal : ℚ
  delivery_fee : ℚ
  tax : ℚ
  total : ℚ
  payment_method : String
  status : String
  payment_status : String
  deriving DecidableEq, Repr

/-- A row of `order_items`. -/
structure OrderItem where
  id : Int
  order_id : Int
  product_id : Int
  product_name : String
  product_price : ℚ
  quantity : Nat
  subtotal : ℚ
  deriving DecidableEq, Repr

/-- The committed database state: one list per table, rows in insertion order,
plus the autoincrement sequences. -/
structure Db where
  users : List User
  addresses : List UserAddress
  categories : List Category
  products : List Product
  orders : List Order
  order_items : List OrderItem
  addr_seq : Int
  order_seq : Int
  item_seq : Int
  deriving DecidableEq, Repr

/-- An `HTTPException`: status code plus detail message. -/
structure ApiError where
  status_code : Nat
  detail : String
  deriving DecidableEq, Repr

instance {ε α : Type} [DecidableEq ε] [DecidableEq α] : DecidableEq (Except ε α) :=
  fun a b =>
    match a, b with
    | .error e, .error f => decidable_of_iff (e = f) (by simp)
    | .error _, .ok _ => isFalse (by simp)
    | .ok _, .error _ => isFalse (by simp)
    | .ok x, .ok y => decidable_of_iff (x = y) (by simp)

/-! ### dependencies.py and routers/auth.py -/

/-- Python `int(x)` applied to the `sub` claim value: succeeds on an `int`,
parses a decimal string, raises `ValueError`/`TypeError` (`none`) otherwise. -/
def pyInt : JVal → Option Int
  | .jint n => some n
  | .jstr s => s.toInt?

/-- The `credentials_exception` of `get_current_user`. -/
def credentials_exception : ApiError :=
  ⟨401, "Could not validate credentials"⟩

/-- `get_current_user` from `app/dependencies.py`. A missing `Authorization`
header is rejected by `OAuth2PasswordBearer` with 401 before the handler runs. -/
def get_current_user (db : Db) (token : Option TokenWire) (now : Nat) :
    Except ApiError User :=
  match token with
  | none => .error ⟨401, "Not authenticated"⟩
  | some t =>
    match decode_access_token t now with
    | none => .error credentials_exception
    | some payload =>
      match payload.sub with
      | none => .error credentials_exception
      | some user_id_str =>
        match pyInt user_id_str with
        | none => .error credentials_exception
        | some user_id =>
          match db.users.find? (fun u => u.id == user_id) with
          | none => .error credentials_exception
          | some user => .ok user

/-- `login` from `app/routers/auth.py`: user lookup by username, password check
(absent user and hash mismatch share one error), active check, token issuance.
The `sub` claim is set to `user.id` — an `int`, not a string. -/
def login (db : Db) (username password : String) (now : Nat) :
    Except ApiError (TokenWire × User) :=
  match db.users.find? (fun u => u.username == username) with
  | none => .error ⟨401, "Invalid username or password"⟩
  | some user =>
    if !verify_password password user.hashed_password then
      .error ⟨401, "Invalid username or password"⟩
    else if !user.is_active then
      .error ⟨403, "Account is deactivated"⟩
    else
      .ok (create_access_token ⟨.jint user.id, user.username, user.role⟩ none now, user)

/-! ### routers/products.py -/

/-- Does `small` occur at the start of `big`? -/
def startsWithSeg : List Char → List Char → Bool
  | [], _ => true
  | _ :: _, [] => false
  | a :: as, b :: bs => a == b && startsWithSeg as bs

/-- Does `small` occur contiguously anywhere inside `big`? -/
def hasSegment (small : List Char) : List Char → Bool
  | [] => small.isEmpty
  | b :: bs => startsWithSeg small (b :: bs) || hasSegment small bs

/-- SQL `column ILIKE '%term%'`: case-insensitive substring match. -/
def ilike (column : String) (term : String) : Bool :=
  hasSegment term.toLower.data column.toLower.data

/-- `get_products` from `app/routers/products.py` (the catalog `list`): filters
active products; a truthy `category` is looked up by name and the category filter
is applied only when the lookup succeeds (an unknown name silently skips the
filter); a truthy `search` matches name or description case-insensitively;
then `offset(skip).limit(limit)`. -/
def get_products (db : Db) (category : Option String) (search : Option String)
    (skip : Nat) (limit : Nat) : List Product :=
  let query := db.products.filter (fun p => p.is_active)
  let query := match category with
    | none => query
    | some c =>
      if c.isEmpty then query
      else match db.categories.find? (fun cat : Category => cat.name == c) with
        | some cat => query.filter (fun p => p.category_id == cat.id)
        | none => query
  let query := match search with
    | none => query
    | some s =>
      if s.isEmpty then query
      else query.filter (fun p =>
        ilike p.name s ||
          (match p.description with
           | some d => ilike d s
           | none => false))
  (query.drop skip).take limit

/-- `get_products_by_category` from `app/routers/products.py`: 404 when the
category name does not exist, else the active products of that category. -/
def get_products_by_category (db : Db) (category_name : String) :
    Except ApiError (List Product) :=
  match db.categories.find? (fun c => c.name == category_name) with
  | none => .error ⟨404, "Category not found"⟩
  | some category =>
    .ok (db.products.filter (fun p => p.category_id == category.id && p.is_active))

/-! ### routers/addresses.py -/

/-- `AddressCreate` request body. -/
structure AddressCreate where
  label : String
  street : String
  city : String
  state : String
  postal_code : String
  country : String
  is_default : Bool
  delivery_instructions : Option String
  deriving DecidableEq, Repr

/-- `AddressUpdate` request body: `none` means the field was not supplied
(`model_dump(exclude_unset=True)` skips it). An explicitly supplied null is not
distinguished — the spec itself flags this ambiguity as an open question. -/
structure AddressUpdate where
  label : Option String
  street : Option String
  city : Option String
  state : Option String
  postal_code : Option String
  country : Option String
  is_default : Option Bool
  delivery_instructions : Option String
  deriving DecidableEq, Repr

/-- The `setattr` loop of `update_address`: apply exactly the supplied fields. -/
def applyUpdate (a : UserAddress) (u : AddressUpdate) : UserAddress :=
  { a with
    label := u.label.getD a.label
    street := u.street.getD a.street
    city := u.city.getD a.city
    state := u.state.getD a.state
    postal_code := u.postal_code.getD a.postal_code
    country := u.country.getD a.country
    is_default := u.is_default.getD a.is_default
    delivery_instructions :=
      match u.delivery_instructions with
      | some s => some s
      | none => a.delivery_instructions }

/-- `query(UserAddress).filter(user_id == uid).update({"is_default": False})`. -/
def clearUserDefaults (addrs : List UserAddress) (uid : Int) : List UserAddress :=
  addrs.map (fun a => if a.user_id == uid then { a with is_default := false } else a)

/-- The same bulk update with the extra filter `UserAddress.id != keep_id`. -/
def clearOtherDefaults (addrs : List UserAddress) (uid : Int) (keep_id : Int) :
    List UserAddress :=
  addrs.map (fun a =>
    if a.user_id == uid && a.id != keep_id then { a with is_default := false } else a)

/-- Mutating the ORM object returned by `.first()`: rewrite the first row
matching the id/owner pair. -/
def updateFirstAddr (f : UserAddress → UserAddress) :
    List UserAddress → Int → Int → List UserAddress
  | [], _, _ => []
  | a :: as, aid, uid =>
    if a.id == aid && a.user_id == uid then f a :: as
    else a :: updateFirstAddr f as aid uid

/-- `db.delete(address)` on the row returned by `.first()`. -/
def removeFirstAddr : List UserAddress → Int → Int → List UserAddress
  | [], _, _ => []
  | a :: as, aid, uid =>
    if a.id == aid && a.user_id == uid then as
    else a :: removeFirstAddr as aid uid

/-- `create_address` from `app/routers/addresses.py`: when `is_default` is
requested, first flip every address of the user to non-default, then insert. -/
def create_address (db : Db) (current_user : User) (address_data : AddressCreate) :
    Db × Except ApiError UserAddress :=
  let addrs :=
    if address_data.is_default then clearUserDefaults db.addresses current_user.id
    else db.addresses
  let new_address : UserAddress :=
    { id := db.addr_seq
      user_id := current_user.id
      label := address_data.label
      street := address_data.street
      city := address_data.city
      state := address_data.state
      postal_code := address_data.postal_code
      country := address_data.country
      is_default := address_data.is_default
      delivery_instructions := address_data.delivery_instructions
      created_at := db.addr_seq }
  ({ db with addresses := addrs ++ [new_address], addr_seq := db.addr_seq + 1 },
    .ok new_address)

/-- `update_address` from `app/routers/addresses.py`: 404 unless the address is
owned by the user; a supplied `is_default=True` first clears default on the
user's *other* addresses; then the supplied fields are applied. -/
def update_address (db : Db) (current_user : User) (address_id : Int)
    (address_data : AddressUpdate) : Db × Except ApiError UserAddress :=
  match db.addresses.find?
      (fun a => a.id == address_id && a.user_id == current_user.id) with
  | none => (db, .error ⟨404, "Address not found"⟩)
  | some address =>
    let addrs :=
      if address_data.is_default == some true then
        clearOtherDefaults db.addresses current_user.id address_id
      else db.addresses
    let addrs :=
      updateFirstAddr (fun a => applyUpdate a address_data) addrs address_id
        current_user.id
    ({ db with addresses := addrs }, .ok (applyUpdate address address_data))

/-- `delete_address` from `app/routers/addresses.py`: 404 unless owned;
unconditional delete, no reassignment of the default. -/
def delete_address (db : Db) (current_user : User) (address_id : Int) :
    Db × Except ApiError Unit :=
  match db.addresses.find?
      (fun a => a.id == address_id && a.user_id == current_user.id) with
  | none => (db, .error ⟨404, "Address not found"⟩)
  | some _ =>
    ({ db with addresses := removeFirstAddr db.addresses address_id current_user.id },
      .ok ())

/-- `set_default_address` from `app/routers/addresses.py`: 404 unless owned;
clears default on all of the user's addresses, then marks this one. -/
def set_default_address (db : Db) (current_user : User) (address_id : Int) :
    Db × Except ApiError UserAddress :=
  match db.addresses.find?
      (fun a => a.id == address_id && a.user_id == current_user.id) with
  | none => (db, .error ⟨404, "Address not found"⟩)
  | some address =>
    let addrs := clearUserDefaults db.addresses current_user.id
    let addrs :=
      updateFirstAddr (fun a => { a with is_default := true }) addrs address_id
        current_user.id
    ({ db with addresses := addrs }, .ok { address with is_default := true })

/-! ### routers/orders.py -/

/-- One element of `OrderCreate.items` (pydantic enforces `quantity > 0`;
quantities are modelled as `Nat`). -/
structure OrderItemCreate where
  product_id : Int
  quantity : Nat
  deriving DecidableEq, Repr

/-- `OrderCreate` request body. -/
structure OrderCreate where
  items : List OrderItemCreate
  delivery_street : String
  delivery_city : String
  delivery_state : String
  delivery_postal_code : String
  delivery_country : String
  delivery_instructions : Option String
  payment_method : String
  deriving DecidableEq, Repr

/-- One entry of the local `order_items_data` list built by the validation loop. -/
structure ItemSnapshot where
  product_id : Int
  product_name : String
  product_price : ℚ
  quantity : Nat
  subtotal : ℚ
  deriving DecidableEq, Repr

/-- Python `round(q)` on an exact value: round half to even (banker's rounding). -/
def pyRound (q : ℚ) : Int :=
  let f := ⌊q⌋
  let r := q - (f : ℚ)
  if r < 1 / 2 then f
  else if 1 / 2 < r then f + 1
  else if f % 2 = 0 then f else f + 1

/-- Python `round(q, 2)`. -/
def round2 (q : ℚ) : ℚ :=
  (pyRound (q * 100) : ℚ) / 100

/-- The first `for item in order_data.items` loop of `create_order`: resolves each
product, rejects missing/inactive/under-stocked lines, and accumulates the running
`subtotal` and the `order_items_data` snapshots. It performs no writes. -/
def orderLoop (db : Db) :
    List OrderItemCreate → ℚ → List ItemSnapshot →
      Except ApiError (ℚ × List ItemSnapshot)
  | [], subtotal, acc => .ok (subtotal, acc)
  | item :: rest, subtotal, acc =>
    match db.products.find? (fun p => p.id == item.product_id) with
    | none =>
      .error ⟨404, "Product " ++ toString item.product_id ++ " not found"⟩
    | some product =>
      if !product.is_active then
        .error ⟨400, "Product " ++ product.name ++ " is not available"⟩
      else if product.stock < (item.quantity : Int) then
        .error ⟨400, "Insufficient stock for " ++ product.name⟩
      else
        let item_subtotal := product.price * (item.quantity : ℚ)
        orderLoop db rest (subtotal + item_subtotal)
          (acc ++ [⟨product.id, product.name, product.price, item.quantity,
            item_subtotal⟩])

/-- `product.stock -= quantity` on the row returned by `.first()`. -/
def decStockFirst : List Product → Int → Nat → List Product
  | [], _, _ => []
  | p :: ps, pid, q =>
    if p.id == pid then { p with stock := p.stock - (q : Int) } :: ps
    else p :: decStockFirst ps pid q

/-- `product.stock += quantity` on the row returned by `.first()`; a missing
product id leaves the table unchanged (the `if product:` guard of `cancel_order`). -/
def incStockFirst : List Product → Int → Nat → List Product
  | [], _, _ => []
  | p :: ps, pid, q =>
    if p.id == pid then { p with stock := p.stock + (q : Int) } :: ps
    else p :: incStockFirst ps pid q

/-- `order.status = st` on the row returned by `.first()`. -/
def setStatusFirst : List Order → Int → String → List Order
  | [], _, _ => []
  | o :: os, oid, st =>
    if o.id == oid then { o with status := st } :: os
    else o :: setStatusFirst os oid st

/-- `create_order` from `app/routers/orders.py`. Phase 1 is the pure validation
loop; on its failure the handler raises before any write, so the committed state
is unchanged. Phase 2 computes fees, inserts the order header, inserts each
order item and decrements each product's stock, then commits everything at once. -/
def create_order (db : Db) (current_user : User) (order_data : OrderCreate) :
    Db × Except ApiError Order :=
  match orderLoop db order_data.items 0 [] with
  | .error e => (db, .error e)
  | .ok (subtotal, order_items_data) =>
    let delivery_fee : ℚ := if subtotal > 500 then 0 else 49
    let tax := round2 (subtotal * (5 / 100))
    let total := subtotal + delivery_fee + tax
    let new_order : Order :=
      { id := db.order_seq
        user_id := current_user.id
        delivery_street := order_data.delivery_street
        delivery_city := order_data.delivery_city
        delivery_state := order_data.delivery_state
        delivery_postal_code := order_data.delivery_postal_code
        delivery_country := order_data.delivery_country
        delivery_instructions := order_data.delivery_instructions
        subtotal := subtotal
        delivery_fee := delivery_fee
        tax := tax
        total := total
        payment_method := order_data.payment_method
        status := "pending"
        payment_status := "pending" }
    let db1 := { db with orders := db.orders ++ [new_order],
                         order_seq := db.order_seq + 1 }
    let db2 := order_items_data.foldl
      (fun d it =>
        { d with
          order_items := d.order_items ++
            [⟨d.item_seq, new_order.id, it.product_id, it.product_name,
              it.product_price, it.quantity, it.subtotal⟩]
          item_seq := d.item_seq + 1
          products := decStockFirst d.products it.product_id it.quantity })
      db1
    (db2, .ok new_order)

/-- `cancel_order` from `app/routers/orders.py`: 404 unless the order is owned by
the user; 400 unless its status is exactly `"pending"`; otherwise set the status
to `"cancelled"` and add each order item's quantity back onto its product. -/
def cancel_order (db : Db) (current_user : User) (order_id : Int) :
    Db × Except ApiError Order :=
  match db.orders.find?
      (fun o => o.id == order_id && o.user_id == current_user.id) with
  | none => (db, .error ⟨404, "Order not found"⟩)
  | some order =>
    if order.status != "pending" then
      (db, .error ⟨400, "Can only cancel pending orders"⟩)
    else
      let items := db.order_items.filter (fun it => it.order_id == order.id)
      let products := items.foldl
        (fun ps it => incStockFirst ps it.product_id it.quantity) db.products
      ({ db with orders := setStatusFirst db.orders order.id "cancelled",
                 products := products },
        .ok { order with status := "cancelled" })

/-! ### Derived observations used by the verification -/

/-- Stock of the product row a `.first()` lookup by id returns. -/
def stockOf (ps : List Product) (pid : Int) : Option Int :=
  (ps.find? (fun p => p.id == pid)).map (fun p => p.stock)

/-- Every product row has a non-negative stock count. -/
def stocksNonneg (db : Db) : Prop :=
  ∀ p ∈ db.products, 0 ≤ p.stock

instance (db : Db) : Decidable (stocksNonneg db) :=
  inferInstanceAs (Decidable (∀ p ∈ db.products, 0 ≤ p.stock))

/-- Current price of the product a cart line resolves to (0 when absent —
unreachable on the success path, where every line resolves). -/
def linePrice (db : Db) (it : OrderItemCreate) : ℚ :=
  match db.products.find? (fun p => p.id == it.product_id) with
  | some p => p.price
  | none => 0

/-- Total quantity the given order items would restore onto product `pid`. -/
def restoredQty (its : List OrderItem) (pid : Int) : Int :=
  ((its.filter (fun it => it.product_id == pid)).map
    (fun it => (it.quantity : Int))).sum

/-- A sequential API operation touching product stock. -/
inductive Op where
  | place : User → OrderCreate → Op
  | cancel : User → Int → Op

/-- Committed state after executing one operation (the handler's HTTP outcome is
dropped; a failed request leaves the committed state unchanged). -/
def stepOp (db : Db) : Op → Db
  | .place u od => (create_order db u od).1
  | .cancel u oid => (cancel_order db u oid).1

/-- Side condition of the amended C3: a `place` cart names each product at most
once; `cancel` is unrestricted. -/
def opOk : Op → Prop
  | .place _ od => (od.items.map (fun i => i.product_id)).Nodup
  | .cancel _ _ => True

instance (op : Op) : Decidable (opOk op) := by
  cases op <;> simp only [opOk] <;> infer_instance

/-- An Address Book operation by an authenticated user. -/
inductive AddrOp where
  | create : User → AddressCreate → AddrOp
  | update : User → Int → AddressUpdate → AddrOp
  | del : User → Int → AddrOp
  | setDefault : User → Int → AddrOp

/-- Committed state after one Address Book request. -/
def stepAddr (db : Db) : AddrOp → Db
  | .create u d => (create_address db u d).1
  | .update u aid d => (update_address db u aid d).1
  | .del u aid => (delete_address db u aid).1
  | .setDefault u aid => (set_default_address db u aid).1

/-- Number of addresses of `uid` marked default. -/
def defaultCount (addrs : List UserAddress) (uid : Int) : Nat :=
  (addrs.filter (fun a => a.user_id == uid && a.is_default)).length

/-- The id column of the address table. -/
def addrIds (addrs : List UserAddress) : List Int :=
  addrs.map (fun a => a.id)

/-- State invariant of the address table: primary keys are distinct and below the
autoincrement sequence, and every user has at most one default address. -/
def AddrInv (db : Db) : Prop :=
  (addrIds db.addresses).Nodup ∧ (∀ a ∈ db.addresses, a.id < db.addr_seq) ∧
    ∀ uid : Int, defaultCount db.addresses uid ≤ 1

/-! ### Concrete instances used as witnesses and counterexamples -/

/-- A registered, active user whose password is `password1`. -/
def c1User : User :=
  ⟨1, "alice", "alice@example.com", hash_password "password1", "Alice", "L",
    none, true, false, "customer"⟩

/-- A store with just that user. -/
def c1Db : Db := ⟨[c1User], [], [], [], [], [], 1, 1, 1⟩

/-- The exact token `login c1Db "alice" "password1" 1000` issues: `sub` carries
the *integer* 1. -/
def c1Token : TokenWire :=
  .signed ⟨some (.jint 1), "alice", "customer", 1000 + 10080 * 60⟩ SECRET_KEY

def c2User : User :=
  ⟨1, "bob", "bob@example.com", ⟨[]⟩, "Bob", "M", none, true, false, "customer"⟩

/-- Two products; the second has too little stock for the cart below. -/
def c2Db : Db :=
  ⟨[c2User], [], [], [⟨1, 1, "Rice", none, 80, 3, true⟩, ⟨2, 1, "Dal", none, 120, 5, true⟩],
    [], [], 1, 1, 1⟩

/-- First line is satisfiable, second line over-orders product 2. -/
def c2Cart : OrderCreate :=
  ⟨[⟨1, 2⟩, ⟨2, 10⟩], "1 St", "Pune", "MH", "411001", "India", none, "card"⟩

def c3User : User :=
  ⟨1, "carol", "carol@example.com", ⟨[]⟩, "Carol", "N", none, true, false, "customer"⟩

/-- One product with stock 5. -/
def c3Db : Db :=
  ⟨[c3User], [], [], [⟨1, 1, "Milk", none, 10, 5, true⟩], [], [], 1, 1, 1⟩

/-- The same product on two cart lines, each within stock on its own. -/
def c3Cart : OrderCreate :=
  ⟨[⟨1, 5⟩, ⟨1, 5⟩], "1 St", "Pune", "MH", "411001", "India", none, "card"⟩

def c3CartSmall : OrderCreate :=
  ⟨[⟨1, 2⟩], "1 St", "Pune", "MH", "411001", "India", none, "card"⟩

def c4User : User :=
  ⟨1, "dave", "dave@example.com", ⟨[]⟩, "Dave", "O", none, true, false, "customer"⟩

def c4Db : Db :=
  ⟨[c4User], [], [], [⟨1, 1, "A", none, 300, 10, true⟩, ⟨2, 1, "B", none, 250, 10, true⟩],
    [], [], 1, 1, 1⟩

/-- Product A (price 300) and product B (price 250), one of each: subtotal 550. -/
def c4Cart1 : OrderCreate :=
  ⟨[⟨1, 1⟩, ⟨2, 1⟩], "1 St", "Pune", "MH", "411001", "India", none, "card"⟩

/-- Product A alone: subtotal 300. -/
def c4Cart2 : OrderCreate :=
  ⟨[⟨1, 1⟩], "1 St", "Pune", "MH", "411001", "India", none, "card"⟩

/-- The order the 550 cart produces. -/
def c4Order1 : Order :=
  ⟨1, 1, "1 St", "Pune", "MH", "411001", "India", none, 550, 0, 55 / 2, 1155 / 2,
    "card", "pending", "pending"⟩

/-- The order the 300 cart produces. -/
def c4Order2 : Order :=
  ⟨1, 1, "1 St", "Pune", "MH", "411001", "India", none, 300, 49, 15, 364,
    "card", "pending", "pending"⟩

def c5User : User :=
  ⟨1, "erin", "erin@example.com", ⟨[]⟩, "Erin", "P", none, true, false, "customer"⟩

/-- An empty store. -/
def c5Db : Db := ⟨[c5User], [], [], [], [], [], 1, 1, 1⟩

def c5Addr : AddressCreate :=
  ⟨"Home", "1 St", "Pune", "MH", "411001", "India", true, none⟩

/-- Three `create` requests, each asking to be the default. -/
def c5Ops : List AddrOp :=
  [.create c5User c5Addr, .create c5User c5Addr, .create c5User c5Addr]

def c6User : User :=
  ⟨1, "fred", "fred@example.com", ⟨[]⟩, "Fred", "Q", none, true, false, "customer"⟩

def c6Order : Order :=
  ⟨1, 1, "1 St", "Pune", "MH", "411001", "India", none, 20, 49, 1, 70, "card",
    "pending", "pending"⟩

/-- A pending order for 2 units of product 1 (stock currently 3). -/
def c6Db : Db :=
  ⟨[c6User], [], [], [⟨1, 1, "Milk", none, 10, 3, true⟩], [c6Order],
    [⟨1, 1, 1, "Milk", 10, 2, 20⟩], 1, 2, 2⟩

/-- The same store with the order already cancelled. -/
def c6DbCancelled : Db :=
  ⟨[c6User], [], [], [⟨1, 1, "Milk", none, 10, 3, true⟩],
    [{ c6Order with status := "cancelled" }], [⟨1, 1, 1, "Milk", 10, 2, 20⟩], 1, 2, 2⟩

/-- One active product, no categories at all. -/
def c8Db : Db :=
  ⟨[], [], [], [⟨1, 1, "Apple", none, 30, 5, true⟩], [], [], 1, 1, 1⟩

def c9User : User :=
  ⟨1, "alice", "alice@example.com", hash_password "correct-pw", "Alice", "L",
    none, true, false, "customer"⟩

def c9Db : Db := ⟨[c9User], [], [], [], [], [], 1, 1, 1⟩

def c10User : User :=
  ⟨1, "gwen", "gwen@example.com", ⟨[]⟩, "Gwen", "R", none, true, false, "customer"⟩

def c10Db : Db :=
  ⟨[c10User], [], [], [⟨1, 1, "Milk", none, 10, 5, true⟩], [], [], 1, 1, 1⟩

def c10Cart : OrderCreate :=
  ⟨[], "1 St", "Pune", "MH", "411001", "India", none, "card"⟩

/-- The order an empty cart produces against `c10Db`. -/
def c10Order : Order :=
  ⟨1, 1, "1 St", "Pune", "MH", "411001", "India", none, 0, 49, 0, 49, "card",
    "pending", "pending"⟩

/-! ### C7 — password truncation -/

set_option maxRecDepth 4000 in
/-- C7 counterexample: `hash_password` checks the UTF-8 *byte* length against 72
but slices by *code point* (`password[:72]`). For 73 repetitions of `'é'`
(2 bytes each) the sliced string handed to the hashing primitive is still
144 bytes long, so the input is not truncated to the 72-byte bound. -/
theorem C7_counterexample :
    pyByteLen (String.mk (List.replicate 73 'é')) = 146 ∧
    hash_password (String.mk (List.replicate 73 'é')) =
      pwdContextHash ((String.mk (List.replicate 73 'é')).take 72) ∧
    pyByteLen ((String.mk (List.replicate 73 'é')).take 72) = 144 ∧
    ¬ pyByteLen ((String.mk (List.replicate 73 'é')).take 72) ≤ 72 := by
  decide

/-- C7 (amended): over-long passwords are truncated to 72 code points (not to the
72-byte bcrypt bound), and `verify_password` applies the same truncation as
`hash_password`, so verification of the original password always succeeds. -/
theorem C7_verify_roundtrip (p : String) :
    verify_password p (hash_password p) = true := by
  simp [verify_password, hash_password, pwdContextVerify, pwdContextHash]

/-! ### C1 — login / resolve round trip -/

/-- C1: the failing input evaluated. User 1 logs in successfully and is issued
`c1Token`, whose `sub` claim is the integer 1; resolving that token one second
later — far before its 7-day expiry — nevertheless fails with 401, because
python-jose rejects a non-string `sub` claim during decoding. -/
theorem C1_issued_token_rejected :
    login c1Db "alice" "password1" 1000 = .ok (c1Token, c1User) ∧
    c1Token = .signed ⟨some (.jint 1), "alice", "customer", 605800⟩ SECRET_KEY ∧
    (1001 : Nat) < 605800 ∧
    c1Db.users.find? (fun u => u.id == 1) = some c1User ∧
    get_current_user c1Db (some c1Token) 1001 = .error credentials_exception := by
  decide

/-! ### C2 — failed order placement persists nothing -/

/-- C2: whenever `create_order` responds with an error (product missing, product
inactive, or insufficient stock on any cart line), the committed state — in
particular every product's stock, including products on cart lines preceding the
failing one — is exactly the state before the request. -/
theorem C2_failed_validation_is_stateless (db : Db) (u : User) (od : OrderCreate)
    (e : ApiError) (h : (create_order db u od).2 = .error e) :
    (create_order db u od).1 = db := by
  rcases hl : orderLoop db od.items 0 [] with e' | ⟨sub, out⟩
  · simp [create_order, hl]
  · simp [create_order, hl] at h

/-- C2 witness: a two-line cart whose first line passes validation and whose
second line over-orders; the response is `InsufficientStock` and the state,
including the stock already checked for line 1, is untouched. -/
theorem C2_witness :
    (create_order c2Db c2User c2Cart).2 = .error ⟨400, "Insufficient stock for Dal"⟩ ∧
    (create_order c2Db c2User c2Cart).1 = c2Db :=
  ⟨by decide,
    C2_failed_validation_is_stateless c2Db c2User c2Cart
      ⟨400, "Insufficient stock for Dal"⟩ (by decide)⟩

/-! ### C9 — login does not reveal username existence -/

/-- C9: a login attempt against an existing username with a non-matching password
and a login attempt against an absent username produce the *same* error — status
401 with detail "Invalid username or password" — so the response does not reveal
whether the username exists. -/
theorem C9_no_username_leak (db : Db) (u1 p1 u2 p2 : String) (n1 n2 : Nat)
    (h1 : ∃ user, db.users.find? (fun x => x.username == u1) = some user ∧
      verify_password p1 user.hashed_password = false)
    (h2 : db.users.find? (fun x => x.username == u2) = none) :
    login db u1 p1 n1 = .error ⟨401, "Invalid username or password"⟩ ∧
    login db u2 p2 n2 = .error ⟨401, "Invalid username or password"⟩ ∧
    login db u1 p1 n1 = login db u2 p2 n2 := by
  obtain ⟨user, hf, hv⟩ := h1
  have e1 : login db u1 p1 n1 = .error ⟨401, "Invalid username or password"⟩ := by
    simp [login, hf, hv]
  have e2 : login db u2 p2 n2 = .error ⟨401, "Invalid username or password"⟩ := by
    simp [login, h2]
  exact ⟨e1, e2, e1.trans e2.symm⟩

/-- C9 witness: `alice` exists (password `correct-pw`), `bob` does not; a wrong
password for `alice` and any password for `bob` fail identically. -/
theorem C9_witness :
    login c9Db "alice" "wrong-pw" 5 = .error ⟨401, "Invalid username or password"⟩ ∧
    login c9Db "bob" "whatever" 6 = .error ⟨401, "Invalid username or password"⟩ ∧
    login c9Db "alice" "wrong-pw" 5 = login c9Db "bob" "whatever" 6 :=
  C9_no_username_leak c9Db "alice" "wrong-pw" "bob" "whatever" 5 6
    ⟨c9User, by decide, by decide⟩ (by decide)

/-! ### C8 — unknown category: list vs list_by_category -/

/-- C8 counterexample: with no category named "Fruits", `get_products` with that
filter returns the full active listing — here one product — not an empty result
as the claim states. -/
theorem C8_counterexample :
    c8Db.categories.find? (fun cat => cat.name == "Fruits") = none ∧
    get_products c8Db (some "Fruits") none 0 100 =
      [⟨1, 1, "Apple", none, 30, 5, true⟩] ∧
    get_products c8Db (some "Fruits") none 0 100 ≠ [] := by
  decide

/-- C8 (amended): a category filter naming a non-existent category is silently
ignored — `get_products` returns exactly what it returns without the filter
(the unfiltered active listing, not an empty result and not an error) — while
`get_products_by_category` with the same name fails with 404 `NotFound`. -/
theorem C8_unknown_category_filter_ignored (db : Db) (c : String)
    (search : Option String) (skip limit : Nat)
    (hc : db.categories.find? (fun cat : Category => cat.name == c) = none) :
    get_products db (some c) search skip limit =
      get_products db none search skip limit ∧
    get_products_by_category db c = .error ⟨404, "Category not found"⟩ := by
  constructor
  · simp [get_products, hc]
  · simp [get_products_by_category, hc]

/-- C8 amended-claim witness at the concrete store. -/
theorem C8_witness :
    get_products c8Db (some "Fruits") none 0 100 =
      get_products c8Db none none 0 100 ∧
    get_products_by_category c8Db "Fruits" = .error ⟨404, "Category not found"⟩ :=
  C8_unknown_category_filter_ignored c8Db "Fruits" none 0 100 (by decide)

/-! ### Generic evaluation helpers -/

/-- Boolean equality agrees with decidable propositional equality (used to let
`simp` evaluate `==` on concrete scrutinees). -/
theorem beq_eq_decide {α : Type} [BEq α] [LawfulBEq α] [DecidableEq α] (a b : α) :
    (a == b) = decide (a = b) := by
  by_cases h : a = b
  · simp [h]
  · simp [h]

/-! ### C10 — empty cart -/

/-- C10: an empty cart is not rejected: `create_order` succeeds, persists an
order with no items, subtotal 0, delivery fee 49, tax 0, total 49 and status
`"pending"`, and changes nothing else — products (hence all stock), users,
addresses and existing orders are untouched. -/
theorem C10_empty_cart_succeeds (db : Db) (u : User) (od : OrderCreate)
    (h : od.items = []) :
    create_order db u od =
      ({ db with
          orders := db.orders ++
            [{ id := db.order_seq, user_id := u.id,
               delivery_street := od.delivery_street,
               delivery_city := od.delivery_city,
               delivery_state := od.delivery_state,
               delivery_postal_code := od.delivery_postal_code,
               delivery_country := od.delivery_country,
               delivery_instructions := od.delivery_instructions,
               subtotal := 0, delivery_fee := 49, tax := 0, total := 49,
               payment_method := od.payment_method, status := "pending",
               payment_status := "pending" }],
          order_seq := db.order_seq + 1 },
        .ok { id := db.order_seq, user_id := u.id,
              delivery_street := od.delivery_street,
              delivery_city := od.delivery_city,
              delivery_state := od.delivery_state,
              delivery_postal_code := od.delivery_postal_code,
              delivery_country := od.delivery_country,
              delivery_instructions := od.delivery_instructions,
              subtotal := 0, delivery_fee := 49, tax := 0, total := 49,
              payment_method := od.payment_method, status := "pending",
              payment_status := "pending" }) := by
  have h2 : round2 (0 * (5 / 100)) = 0 := by norm_num [round2, pyRound]
  simp only [create_order, h, orderLoop, h2, List.foldl_nil]
  norm_num

/-- C10 witness: the empty cart against the concrete store. -/
theorem C10_witness :
    create_order c10Db c10User c10Cart =
      ({ c10Db with orders := [c10Order], order_seq := 2 }, .ok c10Order) :=
  C10_empty_cart_succeeds c10Db c10User c10Cart rfl

/-! ### C4 — order totals -/

/-- Sum property of the validation loop: on success the accumulated subtotal is
the initial accumulator plus the sum over cart lines of the resolved product's
current price times the ordered quantity. -/
theorem orderLoop_sum (db : Db) (items : List OrderItemCreate) :
    ∀ (s : ℚ) (acc : List ItemSnapshot) (sub : ℚ) (out : List ItemSnapshot),
      orderLoop db items s acc = .ok (sub, out) →
      sub = s + (items.map (fun it => linePrice db it * (it.quantity : ℚ))).sum := by
  induction items with
  | nil =>
    intro s acc sub out h
    simp [orderLoop] at h
    simp [← h.1]
  | cons item rest ih =>
    intro s acc sub out h
    simp only [orderLoop] at h
    cases hf : db.products.find? (fun p => p.id == item.product_id) with
    | none => rw [hf] at h; simp at h
    | some p =>
      rw [hf] at h
      by_cases ha : p.is_active
      · by_cases hs : p.stock < (item.quantity : Int)
        · simp [ha, hs] at h
        · simp only [ha, hs, Bool.not_true, if_false, if_true, Bool.not_false,
            ite_false, ite_true] at h
          have hsum := ih _ _ _ _ h
          have hlp : linePrice db item = p.price := by simp [linePrice, hf]
          simp only [List.map_cons, List.sum_cons, hlp, hsum]
          ring
      · simp [ha] at h

/-- C4: every successfully placed order records `subtotal` as the sum over cart
lines of current product price times quantity, `delivery_fee` as 0 when the
subtotal exceeds 500 and 49 otherwise, `tax` as `round(subtotal * 0.05, 2)` and
`total` as their sum. -/
theorem C4_order_totals (db : Db) (u : User) (od : OrderCreate) (o : Order)
    (h : (create_order db u od).2 = .ok o) :
    o.subtotal = (od.items.map (fun it => linePrice db it * (it.quantity : ℚ))).sum ∧
    o.delivery_fee = (if o.subtotal > 500 then (0 : ℚ) else 49) ∧
    o.tax = round2 (o.subtotal * (5 / 100)) ∧
    o.total = o.subtotal + o.delivery_fee + o.tax := by
  rcases hl : orderLoop db od.items 0 [] with e | ⟨sub, out⟩
  · simp [create_order, hl] at h
  · simp only [create_order, hl] at h
    have hsub := orderLoop_sum db od.items 0 [] sub out hl
    cases h
    refine ⟨by simpa using hsub, rfl, rfl, rfl⟩

/-- C4 witness: the cart with subtotal 550 yields fee 0, tax 27.5, total 577.5;
the cart with subtotal 300 yields fee 49, tax 15, total 364; and the persisted
fields satisfy the defining equations. -/
theorem C4_witness :
    (create_order c4Db c4User c4Cart1).2 = .ok c4Order1 ∧
    (c4Order1.subtotal = 550 ∧ c4Order1.delivery_fee = 0 ∧
      c4Order1.tax = 55 / 2 ∧ c4Order1.total = 1155 / 2) ∧
    (c4Order1.delivery_fee = (if c4Order1.subtotal > 500 then (0 : ℚ) else 49) ∧
      c4Order1.tax = round2 (c4Order1.subtotal * (5 / 100)) ∧
      c4Order1.total = c4Order1.subtotal + c4Order1.delivery_fee + c4Order1.tax) ∧
    (create_order c4Db c4User c4Cart2).2 = .ok c4Order2 ∧
    (c4Order2.subtotal = 300 ∧ c4Order2.delivery_fee = 49 ∧
      c4Order2.tax = 15 ∧ c4Order2.total = 364) := by
  have h1 : (create_order c4Db c4User c4Cart1).2 = .ok c4Order1 := by
    norm_num [create_order, orderLoop, c4Db, c4User, c4Cart1, c4Order1,
      List.find?, round2, pyRound, beq_eq_decide]
  have h2 : (create_order c4Db c4User c4Cart2).2 = .ok c4Order2 := by
    norm_num [create_order, orderLoop, c4Db, c4User, c4Cart2, c4Order2,
      List.find?, round2, pyRound, beq_eq_decide]
  exact ⟨h1, by norm_num [c4Order1], (C4_order_totals c4Db c4User c4Cart1 c4Order1 h1).2,
    h2, by norm_num [c4Order2]⟩

/-! ### C3 — stock non-negativity -/

/-- C3 counterexample: product 1 has stock 5 and every stock is non-negative;
the cart orders 5 of it on each of two lines. Both lines pass the
`product.stock < quantity` check against the unmodified stock, the order is
accepted, and the committed stock is −5 — negative. -/
theorem C3_counterexample :
    stocksNonneg c3Db ∧
    (create_order c3Db c3User c3Cart).2.isOk = true ∧
    (create_order c3Db c3User c3Cart).1.products.map (fun p => p.stock) = [-5] ∧
    ¬ stocksNonneg (create_order c3Db c3User c3Cart).1 := by
  exact ⟨by decide, by decide, by decide, by decide⟩

/-! ### Stock-row update lemmas (shared by the order workflow results) -/

/-- `incStockFirst` leaves the first row found under any other id unchanged. -/
theorem incStockFirst_find_ne (ps : List Product) (pid : Int) (q : Nat) (x : Int)
    (hx : x ≠ pid) :
    (incStockFirst ps pid q).find? (fun p => p.id == x) =
      ps.find? (fun p => p.id == x) := by
  induction ps with
  | nil => simp [incStockFirst]
  | cons p ps ih =>
    by_cases hp : (p.id == pid) = true
    · have hpid : p.id = pid := by simpa using hp
      have hnx : (p.id == x) = false := by simp [hpid]; exact fun h => hx h.symm
      simp [incStockFirst, hp, List.find?, hnx]
    · have hp' : (p.id == pid) = false := by simpa using hp
      cases hpx : (p.id == x) <;>
        simp [incStockFirst, hp', List.find?, hpx, ih]

/-- `incStockFirst` adds the quantity onto the first row found under its id. -/
theorem incStockFirst_find_eq (ps : List Product) (pid : Int) (q : Nat) :
    (incStockFirst ps pid q).find? (fun p => p.id == pid) =
      (ps.find? (fun p => p.id == pid)).map
        (fun p => { p with stock := p.stock + (q : Int) }) := by
  induction ps with
  | nil => simp [incStockFirst]
  | cons p ps ih =>
    by_cases hp : (p.id == pid) = true
    · simp [incStockFirst, hp, List.find?]
    · have hp' : (p.id == pid) = false := by simpa using hp
      simp [incStockFirst, hp', List.find?, ih]

/-- The restoration fold of `cancel_order`, observed through `stockOf`: each
product's stock grows by the summed quantities of the items that reference it. -/
theorem incFold_stockOf (its : List OrderItem) :
    ∀ (ps : List Product) (pid : Int),
      stockOf (its.foldl (fun a it => incStockFirst a it.product_id it.quantity) ps) pid =
        (stockOf ps pid).map (fun s => s + restoredQty its pid) := by
  induction its with
  | nil =>
    intro ps pid
    cases h : stockOf ps pid <;> simp [restoredQty, h]
  | cons it its ih =>
    intro ps pid
    simp only [List.foldl_cons]
    rw [ih]
    by_cases hp : it.product_id = pid
    · subst hp
      have hone : stockOf (incStockFirst ps it.product_id it.quantity) it.product_id =
          (stockOf ps it.product_id).map (fun s => s + (it.quantity : Int)) := by
        simp only [stockOf, incStockFirst_find_eq, Option.map_map]
        cases List.find? (fun p => p.id == it.product_id) ps <;> simp
      rw [hone]
      have hr : restoredQty (it :: its) it.product_id =
          (it.quantity : Int) + restoredQty its it.product_id := by
        simp [restoredQty]
      cases h : stockOf ps it.product_id
      · simp [h, hr]
      · simp [h, hr]
        ring
    · have hone : stockOf (incStockFirst ps it.product_id it.quantity) pid =
          stockOf ps pid := by
        simp [stockOf, incStockFirst_find_ne _ _ _ _ (fun h => hp h.symm)]
      rw [hone]
      have hr : restoredQty (it :: its) pid = restoredQty its pid := by
        simp [restoredQty, hp]
      rw [hr]

/-- `decStockFirst` leaves the first row found under any other id unchanged. -/
theorem decStockFirst_find_ne (ps : List Product) (pid : Int) (q : Nat) (x : Int)
    (hx : x ≠ pid) :
    (decStockFirst ps pid q).find? (fun p => p.id == x) =
      ps.find? (fun p => p.id == x) := by
  induction ps with
  | nil => simp [decStockFirst]
  | cons p ps ih =>
    by_cases hp : (p.id == pid) = true
    · have hpid : p.id = pid := by simpa using hp
      have hnx : (p.id == x) = false := by simp [hpid]; exact fun h => hx h.symm
      simp [decStockFirst, hp, List.find?, hnx]
    · have hp' : (p.id == pid) = false := by simpa using hp
      cases hpx : (p.id == x) <;>
        simp [decStockFirst, hp', List.find?, hpx, ih]

/-- Every row after `decStockFirst` is an old row, or the first row found under
the decremented id with the quantity subtracted. -/
theorem decStockFirst_mem (ps : List Product) (pid : Int) (q : Nat) :
    ∀ p' ∈ decStockFirst ps pid q, p' ∈ ps ∨
      ∃ p, ps.find? (fun x => x.id == pid) = some p ∧
        p' = { p with stock := p.stock - (q : Int) } := by
  induction ps with
  | nil => simp [decStockFirst]
  | cons p ps ih =>
    by_cases hp : (p.id == pid) = true
    · intro p' hp'
      simp only [decStockFirst, hp, if_true, List.mem_cons] at hp'
      rcases hp' with h | h
      · exact Or.inr ⟨p, by simp [List.find?, hp], h⟩
      · exact Or.inl (List.mem_cons_of_mem _ h)
    · intro p' hp'
      have hp2 : (p.id == pid) = false := by simpa using hp
      simp only [decStockFirst, hp2, Bool.false_eq_true, if_false, List.mem_cons] at hp'
      rcases hp' with h | h
      · exact Or.inl (h ▸ List.mem_cons_self _ _)
      · rcases ih p' h with h1 | ⟨a, ha, he⟩
        · exact Or.inl (List.mem_cons_of_mem _ h1)
        · exact Or.inr ⟨a, by simp [List.find?, hp2, ha], he⟩

/-- Every row after `incStockFirst` is an old row or an old row with the
quantity added. -/
theorem incStockFirst_mem (ps : List Product) (pid : Int) (q : Nat) :
    ∀ p' ∈ incStockFirst ps pid q, p' ∈ ps ∨
      ∃ p ∈ ps, p' = { p with stock := p.stock + (q : Int) } := by
  induction ps with
  | nil => simp [incStockFirst]
  | cons p ps ih =>
    by_cases hp : (p.id == pid) = true
    · intro p' hp'
      simp only [incStockFirst, hp, if_true, List.mem_cons] at hp'
      rcases hp' with h | h
      · exact Or.inr ⟨p, List.mem_cons_self _ _, h⟩
      · exact Or.inl (List.mem_cons_of_mem _ h)
    · intro p' hp'
      have hp2 : (p.id == pid) = false := by simpa using hp
      simp only [incStockFirst, hp2, Bool.false_eq_true, if_false, List.mem_cons] at hp'
      rcases hp' with h | h
      · exact Or.inl (h ▸ List.mem_cons_self _ _)
      · rcases ih p' h with h1 | ⟨a, ha, he⟩
        · exact Or.inl (List.mem_cons_of_mem _ h1)
        · exact Or.inr ⟨a, List.mem_cons_of_mem _ ha, he⟩

/-- Restoring stock never makes a non-negative stock negative. -/
theorem incFold_nonneg (its : List OrderItem) :
    ∀ ps : List Product, (∀ p ∈ ps, 0 ≤ p.stock) →
      ∀ p' ∈ its.foldl (fun a it => incStockFirst a it.product_id it.quantity) ps,
        0 ≤ p'.stock := by
  induction its with
  | nil => intro ps h; simpa using h
  | cons it its ih =>
    intro ps h
    simp only [List.foldl_cons]
    apply ih
    intro p' hp'
    rcases incStockFirst_mem ps it.product_id it.quantity p' hp' with h1 | ⟨p, hp, he⟩
    · exact h _ h1
    · subst he
      have := h _ hp
      simp only []
      omega

/-- Decrementing per snapshot keeps every stock non-negative, provided the
snapshots name pairwise-distinct products and each is within the stock of the
row it resolves to. -/
theorem decFold_nonneg (its : List ItemSnapshot) :
    ∀ ps : List Product,
      (its.map (fun it => it.product_id)).Nodup →
      (∀ p ∈ ps, 0 ≤ p.stock) →
      (∀ it ∈ its, ∀ p, ps.find? (fun x => x.id == it.product_id) = some p →
        (it.quantity : Int) ≤ p.stock) →
      ∀ p' ∈ its.foldl (fun a it => decStockFirst a it.product_id it.quantity) ps,
        0 ≤ p'.stock := by
  induction its with
  | nil => intro ps _ h _; simpa using h
  | cons it its ih =>
    intro ps hnd h hbd
    obtain ⟨hx, hnd'⟩ := List.nodup_cons.mp hnd
    simp only [List.foldl_cons]
    apply ih _ hnd'
    · intro p' hp'
      rcases decStockFirst_mem ps it.product_id it.quantity p' hp' with h1 | ⟨p, hfp, he⟩
      · exact h _ h1
      · subst he
        have := hbd it (List.mem_cons_self _ _) p hfp
        simp only []
        omega
    · intro it' hit' p hp
      have hne : it'.product_id ≠ it.product_id := by
        intro he
        have hm : it'.product_id ∈ its.map (fun it => it.product_id) :=
          List.mem_map_of_mem _ hit'
        rw [he] at hm
        exact hx hm
      rw [decStockFirst_find_ne ps it.product_id it.quantity it'.product_id hne] at hp
      exact hbd it' (List.mem_cons_of_mem _ hit') p hp

/-! ### C6 — cancel_order -/

/-- C6: `cancel_order`, on an order owned by the caller, fails with 400
`InvalidState` and leaves the whole state untouched unless the status is exactly
`"pending"` (so a second cancel of the same order fails and changes nothing);
on a pending order it succeeds, the returned order's status is `"cancelled"`,
and every product's stock grows by exactly the summed quantities of that order's
items that reference it — the inverse of the placement decrement. -/
theorem C6_cancel_spec (db : Db) (u : User) (oid : Int) :
    (∀ o, db.orders.find? (fun x => x.id == oid && x.user_id == u.id) = some o →
      o.status ≠ "pending" →
      cancel_order db u oid = (db, .error ⟨400, "Can only cancel pending orders"⟩)) ∧
    (∀ o, db.orders.find? (fun x => x.id == oid && x.user_id == u.id) = some o →
      o.status = "pending" →
      (cancel_order db u oid).2 = .ok { o with status := "cancelled" } ∧
      ∀ pid, stockOf (cancel_order db u oid).1.products pid =
        (stockOf db.products pid).map
          (fun s => s + restoredQty
            (db.order_items.filter (fun it => it.order_id == o.id)) pid)) := by
  constructor
  · intro o hf hs
    have hb : (o.status != "pending") = true := by simp [bne_iff_ne, hs]
    simp [cancel_order, hf, hb]
  · intro o hf hs
    have hb : (o.status != "pending") = false := by simp [hs]
    refine ⟨by simp [cancel_order, hf, hb], fun pid => ?_⟩
    simp only [cancel_order, hf, hb, Bool.false_eq_true, if_false]
    exact incFold_stockOf _ _ _

/-- C6 witness: cancelling the pending order restores product 1 from stock 3 to
5 (its item quantity was 2) and marks the order cancelled; cancelling the
already-cancelled copy fails with 400 and changes nothing. -/
theorem C6_witness :
    (cancel_order c6Db c6User 1).2 = .ok { c6Order with status := "cancelled" } ∧
    stockOf (cancel_order c6Db c6User 1).1.products 1 =
      (stockOf c6Db.products 1).map
        (fun s => s + restoredQty
          (c6Db.order_items.filter (fun it => it.order_id == c6Order.id)) 1) ∧
    stockOf (cancel_order c6Db c6User 1).1.products 1 = some 5 ∧
    cancel_order c6DbCancelled c6User 1 =
      (c6DbCancelled, .error ⟨400, "Can only cancel pending orders"⟩) := by
  have h := (C6_cancel_spec c6Db c6User 1).2 c6Order (by decide) rfl
  exact ⟨h.1, h.2 1, by decide,
    (C6_cancel_spec c6DbCancelled c6User 1).1 { c6Order with status := "cancelled" }
      (by decide) (by decide)⟩

/-! ### C3 (amended) — non-negative stock under sequential operation -/

/-- Success of the validation loop ties each produced snapshot to the product
row it resolved to (with the stock bound that was checked), and makes the
snapshots' product ids exactly the cart's product ids. -/
theorem orderLoop_items (db : Db) (items : List OrderItemCreate) :
    ∀ (s : ℚ) (acc : List ItemSnapshot) (sub : ℚ) (out : List ItemSnapshot),
      orderLoop db items s acc = .ok (sub, out) →
      (∀ it ∈ out, it ∈ acc ∨
        ∃ p, db.products.find? (fun x => x.id == it.product_id) = some p ∧
          (it.quantity : Int) ≤ p.stock) ∧
      out.map (fun it => it.product_id) =
        acc.map (fun it => it.product_id) ++ items.map (fun i => i.product_id) := by
  induction items with
  | nil =>
    intro s acc sub out h
    simp [orderLoop] at h
    refine ⟨fun it hit => Or.inl (h.2 ▸ hit), by simp [← h.2]⟩
  | cons item rest ih =>
    intro s acc sub out h
    simp only [orderLoop] at h
    cases hf : db.products.find? (fun p => p.id == item.product_id) with
    | none => rw [hf] at h; simp at h
    | some p =>
      rw [hf] at h
      by_cases ha : p.is_active
      · by_cases hs : p.stock < (item.quantity : Int)
        · simp [ha, hs] at h
        · simp only [ha, hs, Bool.not_true, if_false, if_true, Bool.not_false,
            ite_false, ite_true] at h
          have hres := ih _ _ _ _ h
          have hpid : p.id = item.product_id := by
            have := List.find?_some hf
            simpa using this
          constructor
          · intro it hit
            rcases hres.1 it hit with hin | hex
            · rcases List.mem_append.mp hin with h1 | h1
              · exact Or.inl h1
              · have heq : it = ⟨p.id, p.name, p.price, item.quantity,
                    p.price * (item.quantity : ℚ)⟩ := by simpa using h1
                subst heq
                refine Or.inr ⟨p, ?_, ?_⟩
                · simpa [hpid] using hf
                · simpa using Int.not_lt.mp hs
            · exact Or.inr hex
          · rw [hres.2]
            simp [hpid]
      · simp [ha] at h

/-- Projection of the write phase of `create_order` onto the product table:
it is exactly the iterated per-snapshot stock decrement. -/
theorem dbFold_products (oid : Int) (its : List ItemSnapshot) :
    ∀ d : Db,
      (its.foldl (fun d it =>
        { d with
          order_items := d.order_items ++
            [⟨d.item_seq, oid, it.product_id, it.product_name, it.product_price,
              it.quantity, it.subtotal⟩]
          item_seq := d.item_seq + 1
          products := decStockFirst d.products it.product_id it.quantity }) d).products =
      its.foldl (fun a it => decStockFirst a it.product_id it.quantity) d.products := by
  induction its with
  | nil => intro d; rfl
  | cons it its ih =>
    intro d
    simp only [List.foldl_cons]
    rw [ih]

/-- A `create_order` request whose cart names each product at most once keeps
every stock non-negative. -/
theorem create_order_nonneg (db : Db) (u : User) (od : OrderCreate)
    (hcart : (od.items.map (fun i => i.product_id)).Nodup)
    (h0 : stocksNonneg db) : stocksNonneg (create_order db u od).1 := by
  rcases hl : orderLoop db od.items 0 [] with e | ⟨sub, out⟩
  · simpa [create_order, hl] using h0
  · have hitems := orderLoop_items db od.items 0 [] sub out hl
    intro p' hp'
    simp only [create_order, hl] at hp'
    rw [dbFold_products] at hp'
    have hnd : (out.map (fun it => it.product_id)).Nodup := by
      rw [hitems.2]
      simpa using hcart
    refine decFold_nonneg out db.products hnd h0 ?_ p' hp'
    intro it hit p hp
    rcases hitems.1 it hit with h1 | ⟨q, hq, hb⟩
    · simp at h1
    · rw [hq] at hp
      cases hp
      exact hb

/-- A `cancel_order` request keeps every stock non-negative. -/
theorem cancel_order_nonneg (db : Db) (u : User) (oid : Int)
    (h0 : stocksNonneg db) : stocksNonneg (cancel_order db u oid).1 := by
  cases hf : db.orders.find? (fun o => o.id == oid && o.user_id == u.id) with
  | none => simpa [cancel_order, hf] using h0
  | some o =>
    by_cases hs : (o.status != "pending") = true
    · simpa [cancel_order, hf, hs] using h0
    · have hs2 : (o.status != "pending") = false := by simpa using hs
      intro p' hp'
      simp only [cancel_order, hf, hs2, Bool.false_eq_true, if_false] at hp'
      exact incFold_nonneg _ db.products h0 p' hp'

/-- C3 (amended): from a state with all stocks non-negative, any sequence of
`place_order` and `cancel_order` requests keeps all stocks non-negative,
provided every placed cart names each product id on at most one line. -/
theorem C3_nonneg_preserved (ops : List Op) (db : Db)
    (hops : ∀ op ∈ ops, opOk op) (h0 : stocksNonneg db) :
    stocksNonneg (ops.foldl stepOp db) := by
  induction ops generalizing db with
  | nil => simpa using h0
  | cons op ops ih =>
    simp only [List.foldl_cons]
    apply ih
    · intro o ho
      exact hops o (List.mem_cons_of_mem _ ho)
    · cases op with
      | place u od =>
        exact create_order_nonneg db u od (hops _ (List.mem_cons_self _ _)) h0
      | cancel u oid => exact cancel_order_nonneg db u oid h0

/-- C3 witness: place a duplicate-free cart (2 of product 1) then cancel the
created order; stock goes 5 → 3 → 5 and stays non-negative throughout. -/
theorem C3_witness :
    stocksNonneg (([Op.place c3User c3CartSmall, Op.cancel c3User 1]).foldl stepOp c3Db) ∧
    (([Op.place c3User c3CartSmall, Op.cancel c3User 1]).foldl stepOp c3Db).products.map
      (fun p => p.stock) = [5] :=
  ⟨C3_nonneg_preserved [Op.place c3User c3CartSmall, Op.cancel c3User 1] c3Db
      (by decide) (by decide),
    by decide⟩

/-! ### C5 — single-default address invariant -/


theorem filter_length_mono {α : Type} (l : List α) (p q : α → Bool)
    (h : ∀ a ∈ l, p a = true → q a = true) :
    (l.filter p).length ≤ (l.filter q).length := by
  induction l with
  | nil => simp
  | cons a l ih =>
    have ih' := ih (fun b hb => h b (List.mem_cons_of_mem _ hb))
    cases hpa : p a
    · cases hqa : q a <;> simp [List.filter_cons, hpa, hqa] <;> omega
    · have := h a (List.mem_cons_self _ _) hpa
      simp [List.filter_cons, hpa, this]
      omega

theorem idfilter_le_one (l : List UserAddress) (k : Int)
    (h : (addrIds l).Nodup) :
    (l.filter (fun a => a.id == k)).length ≤ 1 := by
  induction l with
  | nil => simp
  | cons a l ih =>
    rw [addrIds, List.map_cons] at h
    obtain ⟨hx, hnd⟩ := List.nodup_cons.mp h
    cases hak : (a.id == k)
    · simpa [List.filter_cons, hak] using ih hnd
    · have hak' : a.id = k := by simpa using hak
      have hnil : l.filter (fun b => b.id == k) = [] := by
        rw [List.filter_eq_nil_iff]
        intro b hb hbk
        apply hx
        have hbid : b.id = k := by simpa using hbk
        rw [hak'.trans hbid.symm]
        exact List.mem_map_of_mem _ hb
      simp [List.filter_cons, hak, hnil]

theorem count_le_of_key (l : List UserAddress) (uid keep : Int)
    (hnd : (addrIds l).Nodup)
    (h : ∀ a ∈ l, (a.user_id == uid && a.is_default) = true → (a.id == keep) = true) :
    defaultCount l uid ≤ 1 :=
  le_trans (filter_length_mono l _ _ h) (idfilter_le_one l keep hnd)

theorem clearUserDefaults_ids (l : List UserAddress) (uid : Int) :
    addrIds (clearUserDefaults l uid) = addrIds l := by
  unfold addrIds clearUserDefaults
  rw [List.map_map]
  apply List.map_congr_left
  intro a _
  by_cases h : a.user_id = uid <;> simp [h]

theorem clearOtherDefaults_ids (l : List UserAddress) (uid keep : Int) :
    addrIds (clearOtherDefaults l uid keep) = addrIds l := by
  unfold addrIds clearOtherDefaults
  rw [List.map_map]
  apply List.map_congr_left
  intro a _
  by_cases h1 : a.user_id = uid <;> by_cases h2 : a.id = keep <;> simp [h1, h2]

theorem updateFirstAddr_ids (f : UserAddress → UserAddress) (l : List UserAddress)
    (aid uid : Int) (hf : ∀ a, (f a).id = a.id) :
    addrIds (updateFirstAddr f l aid uid) = addrIds l := by
  induction l with
  | nil => simp [updateFirstAddr]
  | cons a l ih =>
    by_cases h : (a.id == aid && a.user_id == uid) = true
    · simp [updateFirstAddr, h, addrIds, hf]
    · simp only [updateFirstAddr, h, Bool.false_eq_true, if_false]
      simp only [addrIds, List.map_cons] at ih ⊢
      rw [ih]

theorem removeFirstAddr_sublist (l : List UserAddress) (aid uid : Int) :
    List.Sublist (removeFirstAddr l aid uid) l := by
  induction l with
  | nil => simp [removeFirstAddr]
  | cons a l ih =>
    by_cases h : (a.id == aid && a.user_id == uid) = true
    · simp only [removeFirstAddr, h, if_true]
      exact List.sublist_cons_self a l
    · simp only [removeFirstAddr, h, Bool.false_eq_true, if_false]
      exact List.Sublist.cons₂ a ih

theorem updateFirstAddr_mem (f : UserAddress → UserAddress) (l : List UserAddress)
    (aid uid : Int) :
    ∀ a' ∈ updateFirstAddr f l aid uid, a' ∈ l ∨
      ∃ a ∈ l, (a.id == aid && a.user_id == uid) = true ∧ a' = f a := by
  induction l with
  | nil => simp [updateFirstAddr]
  | cons a l ih =>
    intro a' ha'
    by_cases h : (a.id == aid && a.user_id == uid) = true
    · simp only [updateFirstAddr, h, if_true, List.mem_cons] at ha'
      rcases ha' with h1 | h1
      · exact Or.inr ⟨a, List.mem_cons_self _ _, h, h1⟩
      · exact Or.inl (List.mem_cons_of_mem _ h1)
    · simp only [updateFirstAddr, h, Bool.false_eq_true, if_false, List.mem_cons] at ha'
      rcases ha' with h1 | h1
      · exact Or.inl (h1 ▸ List.mem_cons_self _ _)
      · rcases ih a' h1 with h2 | ⟨b, hb, hbp, hbe⟩
        · exact Or.inl (List.mem_cons_of_mem _ h2)
        · exact Or.inr ⟨b, List.mem_cons_of_mem _ hb, hbp, hbe⟩

theorem clearUserDefaults_count_self (l : List UserAddress) (uid : Int) :
    defaultCount (clearUserDefaults l uid) uid = 0 := by
  have hnil : (clearUserDefaults l uid).filter
      (fun a => a.user_id == uid && a.is_default) = [] := by
    rw [List.filter_eq_nil_iff]
    intro a ha
    obtain ⟨b, _, rfl⟩ := List.mem_map.mp ha
    by_cases h : (b.user_id == uid) = true <;> simp [h]
  simp [defaultCount, hnil]

theorem filter_map_length {α : Type} (l : List α) (g : α → α) (pred : α → Bool)
    (h : ∀ a ∈ l, pred (g a) = pred a) :
    ((l.map g).filter pred).length = (l.filter pred).length := by
  induction l with
  | nil => rfl
  | cons a l ih =>
    have ih' := ih (fun b hb => h b (List.mem_cons_of_mem _ hb))
    simp only [List.map_cons, List.filter_cons, h a (List.mem_cons_self _ _)]
    cases hp : pred a <;> simp [hp, ih']

theorem clearUserDefaults_count_other (l : List UserAddress) (uid uid' : Int)
    (hne : uid' ≠ uid) :
    defaultCount (clearUserDefaults l uid) uid' = defaultCount l uid' := by
  unfold defaultCount clearUserDefaults
  apply filter_map_length
  intro a _
  by_cases h : a.user_id = uid
  · have : (a.user_id == uid') = false := by
      simp [h]
      exact fun he => hne he.symm
    simp [h, this]
    exact fun he => absurd he.symm hne
  · simp [h]

theorem clearUserDefaults_nodefault (l : List UserAddress) (uid : Int) :
    ∀ a ∈ clearUserDefaults l uid, (a.user_id == uid && a.is_default) = false := by
  intro a ha
  obtain ⟨b, _, rfl⟩ := List.mem_map.mp ha
  by_cases h : b.user_id = uid <;> simp [h]

theorem clearOtherDefaults_key (l : List UserAddress) (uid keep : Int) :
    ∀ a ∈ clearOtherDefaults l uid keep,
      (a.user_id == uid && a.is_default) = true → (a.id == keep) = true := by
  intro a ha hpred
  obtain ⟨b, _, rfl⟩ := List.mem_map.mp ha
  by_cases h1 : b.user_id = uid
  · by_cases h2 : b.id = keep
    · simp [h1, h2]
    · simp [h1, h2] at hpred
  · simp [h1] at hpred

theorem clearOtherDefaults_count_other (l : List UserAddress) (uid keep uid' : Int)
    (hne : uid' ≠ uid) :
    defaultCount (clearOtherDefaults l uid keep) uid' = defaultCount l uid' := by
  unfold defaultCount clearOtherDefaults
  apply filter_map_length
  intro a _
  by_cases h1 : a.user_id = uid
  · by_cases h2 : a.id = keep
    · simp [h1, h2]
    · simp [h1, h2]
      exact fun he => absurd he.symm hne
  · simp [h1]

theorem updateFirstAddr_count_other (f : UserAddress → UserAddress)
    (l : List UserAddress) (aid uid uid' : Int) (hne : uid' ≠ uid)
    (hfu : ∀ a, (f a).user_id = a.user_id) :
    defaultCount (updateFirstAddr f l aid uid) uid' = defaultCount l uid' := by
  induction l with
  | nil => rfl
  | cons a l ih =>
    by_cases h : (a.id == aid && a.user_id == uid) = true
    · have hau : a.user_id = uid := by
        have h2 := h
        simp only [Bool.and_eq_true] at h2
        simpa using h2.2
      have h1 : ((f a).user_id == uid') = false := by
        simp [hfu, hau]
        exact fun he => hne he.symm
      have h2 : (a.user_id == uid') = false := by
        simp [hau]
        exact fun he => hne he.symm
      simp [updateFirstAddr, h, defaultCount, List.filter_cons, h1, h2]
    · simp only [updateFirstAddr, h, Bool.false_eq_true, if_false]
      simp only [defaultCount, List.filter_cons] at ih ⊢
      cases hp : (a.user_id == uid' && a.is_default) <;> simp [hp, ih]

theorem updateFirstAddr_count_le (f : UserAddress → UserAddress)
    (l : List UserAddress) (aid uid uid' : Int)
    (hfu : ∀ a, (f a).user_id = a.user_id)
    (hfd : ∀ a, (f a).is_default = true → a.is_default = true) :
    defaultCount (updateFirstAddr f l aid uid) uid' ≤ defaultCount l uid' := by
  induction l with
  | nil => exact le_refl _
  | cons a l ih =>
    by_cases h : (a.id == aid && a.user_id == uid) = true
    · simp only [updateFirstAddr, h, if_true, defaultCount, List.filter_cons]
      cases hfa : ((f a).user_id == uid' && (f a).is_default)
      · cases hpa : (a.user_id == uid' && a.is_default) <;> simp
      · have hpa : (a.user_id == uid' && a.is_default) = true := by
          have h2 := hfa
          simp only [Bool.and_eq_true] at h2
          obtain ⟨hu, hd⟩ := h2
          simp only [Bool.and_eq_true]
          refine ⟨?_, hfd a hd⟩

          rw [← hfu a]
          exact hu
        simp [hpa]
    · simp only [updateFirstAddr, h, Bool.false_eq_true, if_false]
      simp only [defaultCount, List.filter_cons] at ih ⊢
      cases hp : (a.user_id == uid' && a.is_default) <;> simp [hp] <;> omega

theorem sublist_count_le (l' l : List UserAddress) (uid : Int)
    (h : List.Sublist l' l) : defaultCount l' uid ≤ defaultCount l uid :=
  List.Sublist.length_le (List.Sublist.filter _ h)

theorem append_count (l : List UserAddress) (new : UserAddress) (uid : Int) :
    defaultCount (l ++ [new]) uid = defaultCount l uid +
      (if (new.user_id == uid && new.is_default) = true then 1 else 0) := by
  simp only [defaultCount, List.filter_append, List.length_append, List.filter_cons,
    List.filter_nil]
  cases hp : (new.user_id == uid && new.is_default) <;> simp [hp]

theorem fresh_of_ids {l' l : List UserAddress} {n : Int}
    (hid : addrIds l' = addrIds l) (h : ∀ a ∈ l, a.id < n) : ∀ a ∈ l', a.id < n := by
  intro a ha
  have hm : a.id ∈ addrIds l := by
    rw [← hid]
    exact List.mem_map_of_mem _ ha
  obtain ⟨b, hb, he⟩ := List.mem_map.mp hm
  rw [← he]
  exact h b hb

theorem create_address_inv (db : Db) (u : User) (d : AddressCreate)
    (h : AddrInv db) : AddrInv (create_address db u d).1 := by
  obtain ⟨hnd, hfr, hcnt⟩ := h
  set base := if d.is_default then clearUserDefaults db.addresses u.id
    else db.addresses with hbase
  set new : UserAddress := ⟨db.addr_seq, u.id, d.label, d.street, d.city, d.state,
    d.postal_code, d.country, d.is_default, d.delivery_instructions, db.addr_seq⟩
    with hnew
  have hmain : (create_address db u d).1 =
      { db with addresses := base ++ [new], addr_seq := db.addr_seq + 1 } := rfl
  rw [hmain]
  have hids : addrIds base = addrIds db.addresses := by
    by_cases hd : d.is_default <;> simp [hbase, hd, clearUserDefaults_ids]
  have happ : addrIds (base ++ [new]) = addrIds base ++ [db.addr_seq] := by
    simp [addrIds, hnew]
  refine ⟨?_, ?_, ?_⟩
  · show (addrIds (base ++ [new])).Nodup
    rw [happ, hids, List.nodup_append]
    refine ⟨hnd, List.nodup_singleton _, ?_⟩
    intro x hx hx1
    simp only [List.mem_singleton] at hx1
    subst hx1
    obtain ⟨b, hb, he⟩ := List.mem_map.mp hx
    have := hfr b hb
    omega
  · show ∀ a ∈ base ++ [new], a.id < db.addr_seq + 1
    intro a ha
    rcases List.mem_append.mp ha with h1 | h1
    · have := fresh_of_ids hids hfr a h1
      omega
    · simp only [List.mem_singleton] at h1
      subst h1
      show db.addr_seq < db.addr_seq + 1
      omega
  · intro uid
    show defaultCount (base ++ [new]) uid ≤ 1
    rw [append_count]
    by_cases hu : uid = u.id
    · subst hu
      by_cases hd : d.is_default
      · have h0 : defaultCount base u.id = 0 := by
          rw [show base = clearUserDefaults db.addresses u.id by simp [hbase, hd]]
          exact clearUserDefaults_count_self _ _
        rw [h0]
        split <;> omega
      · have hp : (new.user_id == u.id && new.is_default) = false := by
          simp [hnew, hd]
        rw [hp, show base = db.addresses by simp [hbase, hd]]
        simpa using hcnt u.id
    · have hp : (new.user_id == uid && new.is_default) = false := by
        have : (new.user_id == uid) = false := by
          simp [hnew]
          exact fun he => hu he.symm
        simp [this]
      rw [hp]
      have hc : defaultCount base uid ≤ 1 := by
        by_cases hd : d.is_default
        · rw [show base = clearUserDefaults db.addresses u.id by simp [hbase, hd]]
          rw [clearUserDefaults_count_other _ _ _ hu]
          exact hcnt uid
        · rw [show base = db.addresses by simp [hbase, hd]]
          exact hcnt uid
      simpa using hc

theorem update_address_inv (db : Db) (u : User) (aid : Int) (d : AddressUpdate)
    (h : AddrInv db) : AddrInv (update_address db u aid d).1 := by
  obtain ⟨hnd, hfr, hcnt⟩ := h
  cases hf : db.addresses.find? (fun a => a.id == aid && a.user_id == u.id) with
  | none =>
    have hmain : (update_address db u aid d).1 = db := by simp [update_address, hf]
    rw [hmain]
    exact ⟨hnd, hfr, hcnt⟩
  | some address =>
    set f : UserAddress → UserAddress := fun a => applyUpdate a d with hfdef
    set base := if d.is_default == some true
      then clearOtherDefaults db.addresses u.id aid else db.addresses with hbase
    have hmain : (update_address db u aid d).1 =
        { db with addresses := updateFirstAddr f base aid u.id } := by
      simp only [update_address, hf]
    rw [hmain]
    have hfid : ∀ a, (f a).id = a.id := fun a => rfl
    have hfuid : ∀ a, (f a).user_id = a.user_id := fun a => rfl
    have hids : addrIds base = addrIds db.addresses := by
      by_cases hdef : (d.is_default == some true) = true <;>
        simp [hbase, hdef, clearOtherDefaults_ids]
    have hids2 : addrIds (updateFirstAddr f base aid u.id) = addrIds db.addresses := by
      rw [updateFirstAddr_ids f base aid u.id hfid, hids]
    refine ⟨?_, ?_, ?_⟩
    · show (addrIds (updateFirstAddr f base aid u.id)).Nodup
      rw [hids2]
      exact hnd
    · exact fresh_of_ids hids2 hfr
    · intro uid
      show defaultCount (updateFirstAddr f base aid u.id) uid ≤ 1
      by_cases hu : uid = u.id
      · subst hu
        by_cases hdef : (d.is_default == some true) = true
        · apply count_le_of_key _ u.id aid
          · rw [hids2]
            exact hnd
          · intro a ha hp
            rcases updateFirstAddr_mem f base aid u.id a ha with h1 | ⟨b, hb, hbp, hbe⟩
            · have hb2 : base = clearOtherDefaults db.addresses u.id aid := by
                simp [hbase, hdef]
              rw [hb2] at h1
              exact clearOtherDefaults_key db.addresses u.id aid a h1 hp
            · subst hbe
              simp only [Bool.and_eq_true] at hbp
              exact hbp.1
        · have hfd : ∀ a, (f a).is_default = true → a.is_default = true := by
            intro a hda
            cases hdi : d.is_default with
            | none => simpa [hfdef, applyUpdate, hdi] using hda
            | some b =>
              cases b
              · simp [hfdef, applyUpdate, hdi] at hda
              · exact absurd (by simp [hdi]) hdef
          calc defaultCount (updateFirstAddr f base aid u.id) u.id
              ≤ defaultCount base u.id :=
                updateFirstAddr_count_le f base aid u.id u.id hfuid hfd
            _ ≤ 1 := by
                rw [show base = db.addresses by simp [hbase, hdef]]
                exact hcnt u.id
      · rw [updateFirstAddr_count_other f base aid u.id uid hu hfuid]
        by_cases hdef : (d.is_default == some true) = true
        · rw [show base = clearOtherDefaults db.addresses u.id aid by simp [hbase, hdef]]
          rw [clearOtherDefaults_count_other _ _ _ _ hu]
          exact hcnt uid
        · rw [show base = db.addresses by simp [hbase, hdef]]
          exact hcnt uid

theorem delete_address_inv (db : Db) (u : User) (aid : Int)
    (h : AddrInv db) : AddrInv (delete_address db u aid).1 := by
  obtain ⟨hnd, hfr, hcnt⟩ := h
  cases hf : db.addresses.find? (fun a => a.id == aid && a.user_id == u.id) with
  | none =>
    have hmain : (delete_address db u aid).1 = db := by simp [delete_address, hf]
    rw [hmain]
    exact ⟨hnd, hfr, hcnt⟩
  | some address =>
    have hmain : (delete_address db u aid).1 =
        { db with addresses := removeFirstAddr db.addresses aid u.id } := by
      simp [delete_address, hf]
    rw [hmain]
    have hsub := removeFirstAddr_sublist db.addresses aid u.id
    refine ⟨?_, ?_, ?_⟩
    · exact List.Nodup.sublist (List.Sublist.map _ hsub) hnd
    · intro a ha
      exact hfr a (hsub.subset ha)
    · intro uid
      exact le_trans (sublist_count_le _ _ uid hsub) (hcnt uid)

theorem set_default_address_inv (db : Db) (u : User) (aid : Int)
    (h : AddrInv db) : AddrInv (set_default_address db u aid).1 := by
  obtain ⟨hnd, hfr, hcnt⟩ := h
  cases hf : db.addresses.find? (fun a => a.id == aid && a.user_id == u.id) with
  | none =>
    have hmain : (set_default_address db u aid).1 = db := by
      simp [set_default_address, hf]
    rw [hmain]
    exact ⟨hnd, hfr, hcnt⟩
  | some address =>
    set f : UserAddress → UserAddress := fun a => { a with is_default := true }
      with hfdef
    set base := clearUserDefaults db.addresses u.id with hbase
    have hmain : (set_default_address db u aid).1 =
        { db with addresses := updateFirstAddr f base aid u.id } := by
      simp [set_default_address, hf]
    rw [hmain]
    have hfid : ∀ a, (f a).id = a.id := fun a => rfl
    have hfuid : ∀ a, (f a).user_id = a.user_id := fun a => rfl
    have hids2 : addrIds (updateFirstAddr f base aid u.id) = addrIds db.addresses := by
      rw [updateFirstAddr_ids f base aid u.id hfid, hbase, clearUserDefaults_ids]
    refine ⟨?_, ?_, ?_⟩
    · rw [show (addrIds ((updateFirstAddr f base aid u.id))) =
        addrIds db.addresses from hids2]
      exact hnd
    · exact fresh_of_ids hids2 hfr
    · intro uid
      show defaultCount (updateFirstAddr f base aid u.id) uid ≤ 1
      by_cases hu : uid = u.id
      · subst hu
        apply count_le_of_key _ u.id aid
        · rw [hids2]
          exact hnd
        · intro a ha hp
          rcases updateFirstAddr_mem f base aid u.id a ha with h1 | ⟨b, hb, hbp, hbe⟩
          · rw [hbase] at h1
            have := clearUserDefaults_nodefault db.addresses u.id a h1
            rw [hp] at this
            cases this
          · subst hbe
            simp only [Bool.and_eq_true] at hbp
            exact hbp.1
      · rw [updateFirstAddr_count_other f base aid u.id uid hu hfuid, hbase,
          clearUserDefaults_count_other _ _ _ hu]
        exact hcnt uid

theorem stepAddr_inv (db : Db) (op : AddrOp) (h : AddrInv db) :
    AddrInv (stepAddr db op) := by
  cases op with
  | create u d => exact create_address_inv db u d h
  | update u aid d => exact update_address_inv db u aid d h
  | del u aid => exact delete_address_inv db u aid h
  | setDefault u aid => exact set_default_address_inv db u aid h

/-- C5: starting from a well-formed address table (distinct primary keys below
the sequence value) with at most one default address per user, every sequence of
Address Book operations — create, update, delete, set-default, by any users —
preserves all of it; in particular at most one address per user is marked
default after each operation. -/
theorem C5_single_default (ops : List AddrOp) (db : Db) (h : AddrInv db) :
    AddrInv (ops.foldl stepAddr db) := by
  induction ops generalizing db with
  | nil => simpa using h
  | cons op ops ih =>
    simp only [List.foldl_cons]
    exact ih _ (stepAddr_inv db op h)

/-- C5 witness: three `create` requests with `is_default = true` each leave the
user with exactly one default — the last-created address (id 3). -/
theorem C5_witness :
    defaultCount (c5Ops.foldl stepAddr c5Db).addresses 1 ≤ 1 ∧
    (c5Ops.foldl stepAddr c5Db).addresses.map (fun a => (a.id, a.is_default)) =
      [(1, false), (2, false), (3, true)] :=
  ⟨(C5_single_default c5Ops c5Db
      ⟨by decide, by simp [c5Db], fun uid => by simp [defaultCount, c5Db]⟩).2.2 1,
    by decide⟩

end Grocer
